import Mathlib

/-!
Shallow embedding of the core of `TEXTEDITOR.py`: the drawing canvas
(`DrawingCanvas`), the style-tag machinery of text tabs, the tab registry
(`NotepadApp`), and the session save/load protocol, together with theorems
settling the frozen claims about them.
-/

namespace TextEditor

/-- An RGB color triple, as used by PIL `Image.new` and `ImageDraw` calls. -/
structure RGB where
  r : Nat
  g : Nat
  b : Nat
deriving DecidableEq

/-- `(255, 255, 255)`, the light-mode canvas background. -/
def whiteRGB : RGB := ⟨255, 255, 255⟩

/-- `(30, 30, 30)`, the dark-mode canvas background. -/
def darkRGB : RGB := ⟨30, 30, 30⟩

/-- Value of one hexadecimal digit, as Python `int(s, 16)` reads it. -/
def hexDigitVal (c : Char) : Nat :=
  if '0' ≤ c ∧ c ≤ '9' then c.toNat - 48
  else if 'a' ≤ c ∧ c ≤ 'f' then c.toNat - 87
  else if 'A' ≤ c ∧ c ≤ 'F' then c.toNat - 55
  else 0

/-- `DrawingCanvas.hex_to_rgb`: strips leading `#` and parses three
two-digit hex components. -/
def hex_to_rgb (s : String) : RGB :=
  match s.toList.dropWhile (· = '#') with
  | r1 :: r2 :: g1 :: g2 :: b1 :: b2 :: _ =>
      ⟨16 * hexDigitVal r1 + hexDigitVal r2,
       16 * hexDigitVal g1 + hexDigitVal g2,
       16 * hexDigitVal b1 + hexDigitVal b2⟩
  | _ => ⟨0, 0, 0⟩

/-- A primitive drawn into the canonical PIL image (`ImageDraw` call). -/
inductive Prim
  | line (x1 y1 x2 y2 : Int) (color : RGB) (width : Nat)
  | rect (x1 y1 x2 y2 : Int) (color : RGB) (width : Nat)
  | oval (x1 y1 x2 y2 : Int) (color : RGB) (width : Nat)
deriving DecidableEq

/-- The canonical bitmap `self.image`: a PIL image modelled as its fill
background plus the ordered list of draw operations applied to it. -/
structure PILImage where
  width : Nat
  height : Nat
  background : RGB
  ops : List Prim
deriving DecidableEq

/-- `Image.new("RGB", (w, h), color=bg)`. -/
def imageNew (w h : Nat) (bg : RGB) : PILImage := ⟨w, h, bg, []⟩

/-- A shape item on the interactive tk canvas (colors are hex strings
there, unlike the PIL image). -/
inductive CanvasShape
  | line (x1 y1 x2 y2 : Int) (color : String) (width : Nat)
  | rect (x1 y1 x2 y2 : Int) (color : String) (width : Nat)
  | oval (x1 y1 x2 y2 : Int) (color : String) (width : Nat)
deriving DecidableEq

/-- One tk canvas item; `isPreview` records whether it carries the
`"preview"` tag. -/
structure CanvasItem where
  shape : CanvasShape
  isPreview : Bool
deriving DecidableEq

/-- The interactive tk canvas: its configured background color and its
current display items. -/
structure TkCanvas where
  bg : String
  items : List CanvasItem
deriving DecidableEq

/-- `canvas.delete("preview")`: removes every item tagged `preview`. -/
def TkCanvas.deletePreview (c : TkCanvas) : TkCanvas :=
  { c with items := c.items.filter (fun it => !it.isPreview) }

/-- `canvas.delete("all")`. -/
def TkCanvas.deleteAll (c : TkCanvas) : TkCanvas :=
  { c with items := [] }

/-- The drawing mode radio group (`self.mode_var`). -/
inductive Mode
  | pen
  | line
  | rect
  | oval
deriving DecidableEq

/-- A tk mouse event's coordinates. -/
structure MouseEvent where
  x : Int
  y : Int
deriving DecidableEq

/-- State of `DrawingCanvas` relevant to the drawing semantics: mode,
stroke-tracking coordinates, eraser/dark flags, the tk canvas and the
canonical PIL image. -/
structure DrawingCanvas where
  dark_mode : Bool
  drawing : Bool
  brush_size : Nat
  brush_color : String
  is_eraser : Bool
  last_x : Int
  last_y : Int
  start_x : Int
  start_y : Int
  canvas_theme : String
  mode : Mode
  canvas_width : Nat
  canvas_height : Nat
  canvas : TkCanvas
  image : PILImage
deriving DecidableEq

/-- `DrawingCanvas.__init__` (which ends by calling `set_dark_mode`):
fresh canvas with the dark-mode-dependent background. -/
def DrawingCanvas.init (dark_mode : Bool) : DrawingCanvas :=
  { dark_mode := dark_mode
    drawing := false
    brush_size := 3
    brush_color := if dark_mode then "#FFFFFF" else "#000000"
    is_eraser := false
    last_x := 0
    last_y := 0
    start_x := 0
    start_y := 0
    canvas_theme := "light"
    mode := Mode.pen
    canvas_width := 1200
    canvas_height := 900
    canvas := { bg := if dark_mode then "#1e1e1e" else "#ffffff", items := [] }
    image := imageNew 1200 900 (if dark_mode then darkRGB else whiteRGB) }

/-- `toggle_eraser` (button-color side effects omitted). -/
def DrawingCanvas.toggle_eraser (s : DrawingCanvas) : DrawingCanvas :=
  { s with is_eraser := !s.is_eraser }

/-- `clear_canvas`: fresh image with the dark-mode background, all canvas
items deleted. -/
def DrawingCanvas.clear_canvas (s : DrawingCanvas) : DrawingCanvas :=
  { s with
    image := imageNew s.canvas_width s.canvas_height
      (if s.dark_mode then darkRGB else whiteRGB)
    canvas := s.canvas.deleteAll }

/-- `set_dark_mode`: swaps the canvas and image backgrounds, discards all
strokes, resets the brush color (toolbar recoloring omitted). -/
def DrawingCanvas.set_dark_mode (s : DrawingCanvas) (dm : Bool) : DrawingCanvas :=
  { s with
    dark_mode := dm
    canvas := { bg := if dm then "#1e1e1e" else "#ffffff", items := [] }
    image := imageNew s.canvas_width s.canvas_height (if dm then darkRGB else whiteRGB)
    brush_color := if dm then "#FFFFFF" else "#000000" }

/-- The `theme_colors` hex table in `set_theme`. -/
def theme_colors (t : String) : String :=
  if t = "light" then "#ffffff"
  else if t = "dark" then "#1e1e1e"
  else if t = "sepia" then "#f4eae0"
  else if t = "blue" then "#e3f2fd"
  else if t = "green" then "#e8f5e9"
  else "#ffffff"

/-- The `rgb_colors` table in `set_theme`. -/
def rgb_colors (t : String) : RGB :=
  if t = "light" then whiteRGB
  else if t = "dark" then darkRGB
  else if t = "sepia" then ⟨244, 234, 224⟩
  else if t = "blue" then ⟨227, 242, 253⟩
  else if t = "green" then ⟨232, 245, 233⟩
  else whiteRGB

/-- `set_theme`: recolors the canvas, replaces the canonical image with a
fresh one in the theme background, deletes all canvas items. Note that it
does NOT touch `dark_mode`. -/
def DrawingCanvas.set_theme (s : DrawingCanvas) (theme : String) : DrawingCanvas :=
  { s with
    canvas_theme := theme
    canvas := { bg := theme_colors theme, items := [] }
    image := imageNew s.canvas_width s.canvas_height (rgb_colors theme) }

/-- The color the eraser paints with in `on_mouse_move` / `on_mouse_release`:
`(30,30,30) if self.dark_mode else (255,255,255)`. -/
def eraserColor (dark : Bool) : RGB := if dark then darkRGB else whiteRGB

/-- `on_mouse_press`: arms the stroke, records the anchor, clears any
stale preview. -/
def DrawingCanvas.on_mouse_press (s : DrawingCanvas) (e : MouseEvent) : DrawingCanvas :=
  { s with
    drawing := true
    start_x := e.x
    start_y := e.y
    last_x := e.x
    last_y := e.y
    canvas := s.canvas.deletePreview }

/-- `on_mouse_move`: pen commits a segment into the canonical image and the
canvas; the shape tools redraw a tagged preview on the canvas only. -/
def DrawingCanvas.on_mouse_move (s : DrawingCanvas) (e : MouseEvent) : DrawingCanvas :=
  if !s.drawing then s
  else
    match s.mode with
    | Mode.pen =>
        let color_rgb := if s.is_eraser then eraserColor s.dark_mode
                         else hex_to_rgb s.brush_color
        let canvas_draw_color :=
          if s.is_eraser then (if s.dark_mode then "#1e1e1e" else "#ffffff")
          else s.brush_color
        { s with
          image := { s.image with
            ops := s.image.ops ++
              [Prim.line s.last_x s.last_y e.x e.y color_rgb s.brush_size] }
          canvas := { s.canvas with
            items := s.canvas.items ++
              [⟨CanvasShape.line s.last_x s.last_y e.x e.y canvas_draw_color s.brush_size, false⟩] }
          last_x := e.x
          last_y := e.y }
    | Mode.line =>
        let c := s.canvas.deletePreview
        { s with canvas := { c with
            items := c.items ++
              [⟨CanvasShape.line s.start_x s.start_y e.x e.y s.brush_color s.brush_size, true⟩] } }
    | Mode.rect =>
        let c := s.canvas.deletePreview
        { s with canvas := { c with
            items := c.items ++
              [⟨CanvasShape.rect s.start_x s.start_y e.x e.y s.brush_color s.brush_size, true⟩] } }
    | Mode.oval =>
        let c := s.canvas.deletePreview
        { s with canvas := { c with
            items := c.items ++
              [⟨CanvasShape.oval s.start_x s.start_y e.x e.y s.brush_color s.brush_size, true⟩] } }

/-- The single primitive a shape tool rasterizes on release (pen is
handled move-by-move and contributes nothing at release). -/
def releasePrim (m : Mode) (x1 y1 x2 y2 : Int) (color : RGB) (w : Nat) : List Prim :=
  match m with
  | Mode.pen => []
  | Mode.line => [Prim.line x1 y1 x2 y2 color w]
  | Mode.rect => [Prim.rect x1 y1 x2 y2 color w]
  | Mode.oval => [Prim.oval x1 y1 x2 y2 color w]

/-- The canvas item a shape tool leaves behind on release. -/
def releaseCanvasItem (m : Mode) (x1 y1 x2 y2 : Int) (color : String) (w : Nat) :
    List CanvasItem :=
  match m with
  | Mode.pen => []
  | Mode.line => [⟨CanvasShape.line x1 y1 x2 y2 color w, false⟩]
  | Mode.rect => [⟨CanvasShape.rect x1 y1 x2 y2 color w, false⟩]
  | Mode.oval => [⟨CanvasShape.oval x1 y1 x2 y2 color w, false⟩]

/-- `on_mouse_release`: disarms the stroke; the shape tools rasterize once
from the press anchor to the release point into the canonical image; the
preview is cleared. -/
def DrawingCanvas.on_mouse_release (s : DrawingCanvas) (e : MouseEvent) : DrawingCanvas :=
  if !s.drawing then s
  else
    let color_rgb := if s.is_eraser then eraserColor s.dark_mode
                     else hex_to_rgb s.brush_color
    let s1 : DrawingCanvas :=
      { s with
        drawing := false
        image := { s.image with
          ops := s.image.ops ++
            releasePrim s.mode s.start_x s.start_y e.x e.y color_rgb s.brush_size }
        canvas := { s.canvas with
          items := s.canvas.items ++
            releaseCanvasItem s.mode s.start_x s.start_y e.x e.y s.brush_color s.brush_size } }
    { s1 with canvas := s1.canvas.deletePreview }

/-- A tk `Font` configuration, as constructed by the toggle handlers. -/
structure FontV where
  family : String
  size : Nat
  weight : String
  slant : String
  underline : Nat
deriving DecidableEq

/-- The default text-widget font, `("Arial", 10)` with normal attributes. -/
def defaultFont : FontV := ⟨"Arial", 10, "normal", "roman", 0⟩

/-- One `format_*` tag of a tk Text widget: the set of character positions
it covers (as half-open intervals) plus its configured font. Tags are kept
in creation order, which is tk's priority order from lowest to highest. -/
structure FmtTag where
  spans : List (Nat × Nat)
  font : FontV
deriving DecidableEq

/-- Whether a tag is present at character offset `p`. -/
def FmtTag.covers (t : FmtTag) (p : Nat) : Bool :=
  t.spans.any (fun ab => ab.1 ≤ p ∧ p < ab.2)

/-- `tag_remove(tag, s, e)` restricted to one span `[a, b)`: the leftover
pieces outside `[s, e)`. -/
def clipSpan (s e : Nat) (ab : Nat × Nat) : List (Nat × Nat) :=
  (if ab.1 < min ab.2 s then [(ab.1, min ab.2 s)] else []) ++
  (if max ab.1 e < ab.2 then [(max ab.1 e, ab.2)] else [])

/-- `text_widget.tag_remove(tag, sel_start, sel_end)` on one tag. -/
def FmtTag.removeRange (t : FmtTag) (s e : Nat) : FmtTag :=
  { t with spans := t.spans.flatMap (clipSpan s e) }

/-- A tk Text widget: its text, its base (widget-level) font, and its
`format_*` tags in creation order. -/
structure TextWidget where
  text : String
  base_font : FontV
  tags : List FmtTag
deriving DecidableEq

/-- A fresh empty text widget (`tk.Text` with the Arial 10 default). -/
def emptyTextWidget : TextWidget := ⟨"", defaultFont, []⟩

/-- `text_widget.get("1.0", "end-1c")`: the text. -/
def TextWidget.getAll (w : TextWidget) : String := w.text

/-- `text_widget.get("1.0", tk.END)`: the text plus tk's trailing newline. -/
def TextWidget.getEnd (w : TextWidget) : String := w.text ++ "\n"

/-- `NotepadApp.get_selection_font`: walks `tag_names(sel_start)` (lowest
priority, i.e. earliest created, first) and returns the font of the first
`format_*` tag found, else the widget's base font. -/
def get_selection_font (w : TextWidget) (sel_start : Nat) : FontV :=
  match w.tags.find? (fun t => t.covers sel_start) with
  | some t => t.font
  | none => w.base_font

/-- `NotepadApp.apply_format_to_selection`: removes `[sel_start, sel_end)`
from every format tag present at `sel_start` (only those!), then adds a
fresh highest-priority tag covering `[sel_start, sel_end)` with `font`. -/
def apply_format_to_selection (w : TextWidget) (font : FontV)
    (sel_start sel_end : Nat) : TextWidget :=
  let tags' := w.tags.map (fun t =>
    if t.covers sel_start then t.removeRange sel_start sel_end else t)
  { w with tags := tags' ++ [{ spans := [(sel_start, sel_end)], font := font }] }

/-- The content a tab owns: a text widget or a drawing canvas. -/
inductive TabContent
  | text (w : TextWidget)
  | drawing (d : DrawingCanvas)
deriving DecidableEq

/-- The `Tab` data class (fields relevant to the claims; `tab_number` is
set as a separate attribute in Python, hence `Option`). -/
structure Tab where
  name : String
  is_drawing : Bool
  content : TabContent
  file_path : Option String
  tab_number : Option Nat
  drawing_text : String
  linked_text_tab_name : String
  linked_drawing_tab_name : String
deriving DecidableEq

/-- `NotepadApp` registry state: the ordered tab list, the active-tab
pointer, the dark-mode flag and the per-kind used-number pools. -/
structure NotepadApp where
  tabs : List Tab
  current_tab_index : Nat
  dark_mode : Bool
  used_text_tab_numbers : Finset Nat
  used_drawing_tab_numbers : Finset Nat
deriving DecidableEq

/-- The `while num in used: num += 1` scan, with enough fuel to clear the
finite used set. -/
def scanLoop (used : Finset Nat) : Nat → Nat → Nat
  | 0, num => num
  | fuel + 1, num => if num ∈ used then scanLoop used fuel (num + 1) else num

/-- `NotepadApp.get_next_text_tab_number`. -/
def get_next_text_tab_number (used : Finset Nat) : Nat :=
  if used = ∅ then 1 else scanLoop used (used.card + 1) 1

/-- `NotepadApp.get_next_drawing_tab_number` (same body, separate def). -/
def get_next_drawing_tab_number (used : Finset Nat) : Nat :=
  if used = ∅ then 1 else scanLoop used (used.card + 1) 1

/-- `NotepadApp.new_text_tab`: allocates the next text number, marks it
used, appends an `Untitled n` text tab, selects it. -/
def NotepadApp.new_text_tab (app : NotepadApp) : NotepadApp :=
  let n := get_next_text_tab_number app.used_text_tab_numbers
  let tab : Tab :=
    { name := "Untitled " ++ toString n
      is_drawing := false
      content := TabContent.text emptyTextWidget
      file_path := none
      tab_number := some n
      drawing_text := ""
      linked_text_tab_name := ""
      linked_drawing_tab_name := "" }
  { app with
    used_text_tab_numbers := insert n app.used_text_tab_numbers
    tabs := app.tabs ++ [tab]
    current_tab_index := app.tabs.length }

/-- `NotepadApp.new_drawing_tab`: allocates the next drawing number, marks
it used, appends a `Drawing n` tab with a fresh canvas, selects it. -/
def NotepadApp.new_drawing_tab (app : NotepadApp) : NotepadApp :=
  let n := get_next_drawing_tab_number app.used_drawing_tab_numbers
  let tab : Tab :=
    { name := "Drawing " ++ toString n
      is_drawing := true
      content := TabContent.drawing (DrawingCanvas.init app.dark_mode)
      file_path := none
      tab_number := some n
      drawing_text := ""
      linked_text_tab_name := ""
      linked_drawing_tab_name := "" }
  { app with
    used_drawing_tab_numbers := insert n app.used_drawing_tab_numbers
    tabs := app.tabs ++ [tab]
    current_tab_index := app.tabs.length }

/-- `NotepadApp.open_file` on a successful dialog and read: allocates a
text number, marks it used, appends a tab named after the file holding the
file's content, selects it. -/
def NotepadApp.open_file (app : NotepadApp) (basename file_path content : String) :
    NotepadApp :=
  let n := get_next_text_tab_number app.used_text_tab_numbers
  let tab : Tab :=
    { name := basename
      is_drawing := false
      content := TabContent.text { emptyTextWidget with text := content }
      file_path := some file_path
      tab_number := some n
      drawing_text := ""
      linked_text_tab_name := ""
      linked_drawing_tab_name := "" }
  { app with
    used_text_tab_numbers := insert n app.used_text_tab_numbers
    tabs := app.tabs ++ [tab]
    current_tab_index := app.tabs.length }

/-- `NotepadApp.close_tab`: releases the tab's number (if any), removes the
tab; when the registry empties it synchronously creates a default text
tab, otherwise it repoints the active index to `max 0 (index - 1)`. -/
def NotepadApp.close_tab (app : NotepadApp) (index : Nat) : NotepadApp :=
  if h : index < app.tabs.length then
    let tab := app.tabs.get ⟨index, h⟩
    let app1 :=
      match tab.tab_number with
      | some n =>
          if tab.is_drawing then
            { app with used_drawing_tab_numbers := app.used_drawing_tab_numbers.erase n }
          else
            { app with used_text_tab_numbers := app.used_text_tab_numbers.erase n }
      | none => app
    let app2 := { app1 with tabs := app1.tabs.eraseIdx index }
    if app2.tabs.isEmpty then app2.new_text_tab
    else { app2 with current_tab_index := index - 1 }
  else app

/-- Python `list.insert`, which clamps an out-of-range index to an append. -/
def pyInsert {α : Type} (i : Nat) (x : α) : List α → List α
  | [] => [x]
  | y :: ys =>
      match i with
      | 0 => x :: y :: ys
      | j + 1 => y :: pyInsert j x ys

/-- `NotepadApp.on_tab_motion` with the drag-start index and the hovered
index: moves the dragged tab (`pop` then `insert`). It does not touch
`current_tab_index`. -/
def NotepadApp.on_tab_motion (app : NotepadApp) (drag_start new_index : Nat) :
    NotepadApp :=
  if new_index ≠ drag_start then
    match app.tabs.get? drag_start with
    | some t => { app with tabs := pyInsert new_index t (app.tabs.eraseIdx drag_start) }
    | none => app
  else app

/-- The linking step of `export_with_selected_drawing`: the current text
tab's forward reference and the selected drawing tab's back-reference and
associated text are set. No other tab is modified. -/
def NotepadApp.export_with_selected_drawing (app : NotepadApp)
    (textIdx drawIdx : Nat) : NotepadApp :=
  match app.tabs.get? textIdx, app.tabs.get? drawIdx with
  | some ct, some dt =>
      let ctText := match ct.content with
        | TabContent.text w => w.getAll
        | TabContent.drawing _ => ""
      let ct' := { ct with linked_drawing_tab_name := dt.name }
      let dt' := { dt with
        linked_text_tab_name := ct.name
        drawing_text := ctText }
      { app with tabs := (app.tabs.set textIdx ct').set drawIdx dt' }
  | _, _ => app

/-- The fate of one sidecar file at restore time: absent on disk
(`os.path.exists` false), present but unreadable (the read raises), or
readable with its content. A successful `save_session` write produces
`ok`. -/
inductive Sidecar (α : Type)
  | missing
  | corrupt
  | ok (content : α)
deriving DecidableEq

/-- One entry of the session JSON's `tabs` list, per type. -/
inductive TabInfo
  | text (tab_number : Option Nat) (path : Sidecar String) (name : String)
      (file_path : Option String)
  | drawing (tab_number : Option Nat) (path : Sidecar PILImage) (name : String)
      (drawing_text : String) (linked_text_tab_name : String)
deriving DecidableEq

/-- The session JSON: the two used-number pools and the tab entries. -/
structure SessionData where
  used_text_tab_numbers : Finset Nat
  used_drawing_tab_numbers : Finset Nat
  tabs : List TabInfo
deriving DecidableEq

/-- The entry `save_session` writes for one tab, when the sidecar write
succeeds (a tab whose content does not match its kind raises and is
skipped, mirroring the per-tab `except` clause). Note the text entry does
NOT record `linked_drawing_tab_name`. -/
def Tab.saveInfo (t : Tab) : Option TabInfo :=
  if t.is_drawing then
    match t.content with
    | TabContent.drawing d =>
        some (TabInfo.drawing t.tab_number (Sidecar.ok d.image) t.name
          t.drawing_text t.linked_text_tab_name)
    | TabContent.text _ => none
  else
    match t.content with
    | TabContent.text w =>
        some (TabInfo.text t.tab_number (Sidecar.ok w.getEnd) t.name t.file_path)
    | TabContent.drawing _ => none

/-- `NotepadApp.save_session` with all sidecar writes succeeding. -/
def NotepadApp.save_session (app : NotepadApp) : SessionData :=
  { used_text_tab_numbers := app.used_text_tab_numbers
    used_drawing_tab_numbers := app.used_drawing_tab_numbers
    tabs := app.tabs.filterMap Tab.saveInfo }

/-- `drawing_canvas.image.paste(img_resized)`: the loaded bitmap replaces
the fresh canvas's pixel content (resize is the identity at the fixed
1200×900 canvas size). -/
def PILImage.pasteFull (dst src : PILImage) : PILImage :=
  { dst with background := src.background, ops := src.ops }

/-- Restoring one session entry inside `load_session`'s per-tab loop:
a tab whose sidecar file is absent is skipped (`os.path.exists` guard);
a text tab whose sidecar read raises is skipped (the read precedes the
`Tab` creation and the exception is caught per-tab); a drawing tab whose
image fails to open keeps its fresh empty canvas. -/
def restoreInfo (dark_mode : Bool) : TabInfo → Option Tab
  | TabInfo.text num path name fp =>
      match path with
      | Sidecar.ok content =>
          some
            { name := name
              is_drawing := false
              content := TabContent.text { emptyTextWidget with text := content }
              file_path := fp
              tab_number := num
              drawing_text := ""
              linked_text_tab_name := ""
              linked_drawing_tab_name := "" }
      | _ => none
  | TabInfo.drawing num path name dtext ltname =>
      match path with
      | Sidecar.missing => none
      | Sidecar.corrupt =>
          some
            { name := name
              is_drawing := true
              content := TabContent.drawing (DrawingCanvas.init dark_mode)
              file_path := none
              tab_number := num
              drawing_text := dtext
              linked_text_tab_name := ltname
              linked_drawing_tab_name := "" }
      | Sidecar.ok img =>
          let d := DrawingCanvas.init dark_mode
          some
            { name := name
              is_drawing := true
              content := TabContent.drawing { d with image := d.image.pasteFull img }
              file_path := none
              tab_number := num
              drawing_text := dtext
              linked_text_tab_name := ltname
              linked_drawing_tab_name := "" }

/-- Python `str.startswith`, on the character lists of the strings. -/
def pyStartsWith (s p : String) : Bool := List.isPrefixOf p.toList s.toList

/-- `NotepadApp.load_session` on an existing, parseable session file:
replaces the used-number pools with the stored ones, removes the startup
placeholder (when it is the only tab and its name starts with `Untitled`)
while discarding its number from the freshly restored text pool, then
appends each restorable entry in manifest order. -/
def NotepadApp.load_session (app : NotepadApp) (data : SessionData) : NotepadApp :=
  let app1 := { app with
    used_text_tab_numbers := data.used_text_tab_numbers
    used_drawing_tab_numbers := data.used_drawing_tab_numbers }
  let app2 :=
    match app1.tabs with
    | [t0] =>
        if pyStartsWith t0.name ("Untitled") then
          { app1 with
            used_text_tab_numbers :=
              match t0.tab_number with
              | some n => app1.used_text_tab_numbers.erase n
              | none => app1.used_text_tab_numbers
            tabs := [] }
        else app1
    | _ => app1
  { app2 with
    tabs := app2.tabs ++ data.tabs.filterMap (restoreInfo app2.dark_mode) }

/-- The registry state right after `NotepadApp.__init__` reaches
`self.new_text_tab()` (and before `self.load_session()`): one `Untitled 1`
text tab, number 1 marked used. -/
def NotepadApp.initial : NotepadApp :=
  NotepadApp.new_text_tab
    { tabs := []
      current_tab_index := 0
      dark_mode := false
      used_text_tab_numbers := ∅
      used_drawing_tab_numbers := ∅ }

/-! ### Helper lemmas -/

theorem scanLoop_spec (used : Finset Nat) :
    ∀ (fuel num : Nat), (used.filter (fun m => num ≤ m)).card < fuel →
      scanLoop used fuel num ∉ used ∧ num ≤ scanLoop used fuel num ∧
      ∀ m, num ≤ m → m < scanLoop used fuel num → m ∈ used := by
  intro fuel
  induction fuel with
  | zero => intro num h; omega
  | succ fuel ih =>
      intro num h
      by_cases hn : num ∈ used
      · have hmem : num ∈ used.filter (fun m => num ≤ m) := by
          simp [Finset.mem_filter, hn]
        have hsub : used.filter (fun m => num + 1 ≤ m) ⊆
            (used.filter (fun m => num ≤ m)).erase num := by
          intro m hm
          simp only [Finset.mem_filter] at hm
          refine Finset.mem_erase.mpr ⟨by omega, ?_⟩
          simp only [Finset.mem_filter]
          exact ⟨hm.1, by omega⟩
        have hcard : (used.filter (fun m => num + 1 ≤ m)).card < fuel := by
          have h1 := Finset.card_le_card hsub
          have h2 := Finset.card_erase_of_mem hmem
          have h3 : 0 < (used.filter (fun m => num ≤ m)).card :=
            Finset.card_pos.mpr ⟨num, hmem⟩
          omega
        obtain ⟨ih1, ih2, ih3⟩ := ih (num + 1) hcard
        have hstep : scanLoop used (fuel + 1) num = scanLoop used fuel (num + 1) := by
          simp [scanLoop, hn]
        refine ⟨by rw [hstep]; exact ih1, by rw [hstep]; omega, ?_⟩
        intro m hm1 hm2
        rw [hstep] at hm2
        rcases eq_or_lt_of_le hm1 with heq | hlt
        · exact heq ▸ hn
        · exact ih3 m (by omega) hm2
      · have hstep : scanLoop used (fuel + 1) num = num := by simp [scanLoop, hn]
        refine ⟨by rw [hstep]; exact hn, by rw [hstep], ?_⟩
        intro m hm1 hm2
        rw [hstep] at hm2
        omega

theorem get_next_text_spec (used : Finset Nat) :
    get_next_text_tab_number used ∉ used ∧ 1 ≤ get_next_text_tab_number used ∧
      ∀ m, 1 ≤ m → m < get_next_text_tab_number used → m ∈ used := by
  unfold get_next_text_tab_number
  by_cases h : used = ∅
  · simp [h]
    intro m h1
    omega
  · simp only [h, if_false]
    exact scanLoop_spec used (used.card + 1) 1
      (Nat.lt_succ_of_le (Finset.card_filter_le _ _))

theorem get_next_drawing_spec (used : Finset Nat) :
    get_next_drawing_tab_number used ∉ used ∧ 1 ≤ get_next_drawing_tab_number used ∧
      ∀ m, 1 ≤ m → m < get_next_drawing_tab_number used → m ∈ used := by
  unfold get_next_drawing_tab_number
  by_cases h : used = ∅
  · simp [h]
    intro m h1
    omega
  · simp only [h, if_false]
    exact scanLoop_spec used (used.card + 1) 1
      (Nat.lt_succ_of_le (Finset.card_filter_le _ _))

theorem pyInsert_length {α : Type} (x : α) :
    ∀ (l : List α) (i : Nat), (pyInsert i x l).length = l.length + 1 := by
  intro l
  induction l with
  | nil => intro i; simp [pyInsert]
  | cons y ys ih =>
      intro i
      cases i with
      | zero => simp [pyInsert]
      | succ j => simp [pyInsert, ih j]

theorem pyInsert_get?_self {α : Type} (x : α) :
    ∀ (l : List α) (i : Nat), i ≤ l.length → (pyInsert i x l).get? i = some x := by
  intro l
  induction l with
  | nil =>
      intro i hi
      have hz : i = 0 := by simpa using hi
      subst hz
      simp [pyInsert]
  | cons y ys ih =>
      intro i hi
      cases i with
      | zero => simp [pyInsert]
      | succ j =>
          simp only [pyInsert, List.get?_cons_succ]
          exact ih j (by simpa using hi)

theorem get?_set_self {α : Type} :
    ∀ (l : List α) (i : Nat) (a : α), i < l.length → (l.set i a).get? i = some a := by
  intro l
  induction l with
  | nil => intro i a hi; simp at hi
  | cons y ys ih =>
      intro i a hi
      cases i with
      | zero => rfl
      | succ j =>
          simp only [List.set_cons_succ, List.get?_cons_succ]
          exact ih j a (by simpa using hi)

theorem get?_set_other {α : Type} :
    ∀ (l : List α) (i j : Nat) (a : α), i ≠ j → (l.set i a).get? j = l.get? j := by
  intro l
  induction l with
  | nil => intro i j a _; simp
  | cons y ys ih =>
      intro i j a hij
      cases i with
      | zero =>
          cases j with
          | zero => exact absurd rfl hij
          | succ k => rfl
      | succ i' =>
          cases j with
          | zero => rfl
          | succ k =>
              simp only [List.set_cons_succ, List.get?_cons_succ]
              exact ih i' k a (by omega)

theorem length_eraseIdx' {α : Type} {l : List α} {i : Nat} (h : i < l.length) :
    (l.eraseIdx i).length = l.length - 1 := by
  have := List.length_eraseIdx_add_one h
  omega

theorem pairwise_eraseIdx_rel {α : Type} {R : α → α → Prop}
    (hsym : ∀ a b, R a b → R b a) :
    ∀ (l : List α) (i : Nat) (hi : i < l.length) (t : α),
      l.Pairwise R → t ∈ l.eraseIdx i → R (l.get ⟨i, hi⟩) t := by
  intro l
  induction l with
  | nil => intro i hi; simp at hi
  | cons x xs ih =>
      intro i hi t hl ht
      obtain ⟨hx, hxs⟩ := List.pairwise_cons.mp hl
      cases i with
      | zero =>
          simp only [List.eraseIdx_cons_zero] at ht
          exact hx t ht
      | succ j =>
          simp only [List.eraseIdx_cons_succ] at ht
          rcases List.mem_cons.mp ht with rfl | hmem
          · exact hsym _ _ (hx _ (List.get_mem xs _ _))
          · exact ih j (by simpa using hi) t hxs hmem

theorem filter_preview_of_deleted (l : List CanvasItem) :
    ((l.filter (fun it => !it.isPreview)).filter (fun it => it.isPreview)) = [] := by
  simp [List.filter_filter]

/-- Field preservation of `on_mouse_move` for the shape tools: only the
tk preview changes; the canonical image, the anchor, and all tool
parameters are untouched. -/
theorem on_mouse_move_shape_fields (s : DrawingCanvas) (e : MouseEvent)
    (hm : s.mode ≠ Mode.pen) :
    (s.on_mouse_move e).image = s.image ∧ (s.on_mouse_move e).mode = s.mode ∧
    (s.on_mouse_move e).drawing = s.drawing ∧
    (s.on_mouse_move e).start_x = s.start_x ∧ (s.on_mouse_move e).start_y = s.start_y ∧
    (s.on_mouse_move e).is_eraser = s.is_eraser ∧
    (s.on_mouse_move e).dark_mode = s.dark_mode ∧
    (s.on_mouse_move e).brush_color = s.brush_color ∧
    (s.on_mouse_move e).brush_size = s.brush_size := by
  unfold DrawingCanvas.on_mouse_move
  cases hd : s.drawing with
  | false => simp [hd]
  | true =>
      cases hmode : s.mode with
      | pen => exact absurd hmode hm
      | line => simp [hd, hmode]
      | rect => simp [hd, hmode]
      | oval => simp [hd, hmode]

/-- Folding any number of shape-tool mouse-move samples leaves the
canonical image and the stroke parameters unchanged. -/
theorem foldl_move_shape (evs : List MouseEvent) :
    ∀ (s : DrawingCanvas), s.mode ≠ Mode.pen →
    ((evs.foldl DrawingCanvas.on_mouse_move s).image = s.image ∧
     (evs.foldl DrawingCanvas.on_mouse_move s).mode = s.mode ∧
     (evs.foldl DrawingCanvas.on_mouse_move s).drawing = s.drawing ∧
     (evs.foldl DrawingCanvas.on_mouse_move s).start_x = s.start_x ∧
     (evs.foldl DrawingCanvas.on_mouse_move s).start_y = s.start_y ∧
     (evs.foldl DrawingCanvas.on_mouse_move s).is_eraser = s.is_eraser ∧
     (evs.foldl DrawingCanvas.on_mouse_move s).dark_mode = s.dark_mode ∧
     (evs.foldl DrawingCanvas.on_mouse_move s).brush_color = s.brush_color ∧
     (evs.foldl DrawingCanvas.on_mouse_move s).brush_size = s.brush_size) := by
  induction evs with
  | nil => intro s _; exact ⟨rfl, rfl, rfl, rfl, rfl, rfl, rfl, rfl, rfl⟩
  | cons e evs ih =>
      intro s hm
      obtain ⟨h1, h2, h3, h4, h5, h6, h7, h8, h9⟩ := on_mouse_move_shape_fields s e hm
      obtain ⟨g1, g2, g3, g4, g5, g6, g7, g8, g9⟩ :=
        ih (s.on_mouse_move e) (by rw [h2]; exact hm)
      simp only [List.foldl_cons]
      exact ⟨g1.trans h1, g2.trans h2, g3.trans h3, g4.trans h4, g5.trans h5,
        g6.trans h6, g7.trans h7, g8.trans h8, g9.trans h9⟩

/-- What `on_mouse_release` does to an armed canvas: disarms, appends the
single release primitive to the canonical image, clears the preview. -/
theorem on_mouse_release_armed (s : DrawingCanvas) (e : MouseEvent)
    (hd : s.drawing = true) :
    (s.on_mouse_release e).image.ops =
      s.image.ops ++ releasePrim s.mode s.start_x s.start_y e.x e.y
        (if s.is_eraser then eraserColor s.dark_mode else hex_to_rgb s.brush_color)
        s.brush_size ∧
    ((s.on_mouse_release e).canvas.items.filter (fun it => it.isPreview)) = [] ∧
    (s.on_mouse_release e).drawing = false := by
  unfold DrawingCanvas.on_mouse_release
  rw [hd]
  exact ⟨rfl, filter_preview_of_deleted _, rfl⟩

/-! ### Claim theorems -/

/-- C3: allocating a tab number of either kind returns the smallest
positive integer not in that kind's used set and marks it used; closing
the tab numbered 2 and creating a new tab of the same kind yields 2 again
(never 3) while 1 and 3 stay used. -/
theorem C3_allocate_smallest_free :
    (∀ used : Finset Nat,
      (get_next_text_tab_number used ∉ used ∧ 1 ≤ get_next_text_tab_number used ∧
        ∀ m, 1 ≤ m → m < get_next_text_tab_number used → m ∈ used) ∧
      (get_next_drawing_tab_number used ∉ used ∧ 1 ≤ get_next_drawing_tab_number used ∧
        ∀ m, 1 ≤ m → m < get_next_drawing_tab_number used → m ∈ used)) ∧
    (∀ app : NotepadApp,
      app.new_text_tab.used_text_tab_numbers =
        insert (get_next_text_tab_number app.used_text_tab_numbers)
          app.used_text_tab_numbers ∧
      app.new_drawing_tab.used_drawing_tab_numbers =
        insert (get_next_drawing_tab_number app.used_drawing_tab_numbers)
          app.used_drawing_tab_numbers) ∧
    get_next_text_tab_number {1, 3} = 2 ∧
    ((((NotepadApp.initial.new_text_tab).new_text_tab).close_tab 1).new_text_tab).tabs.map
        (fun t => t.tab_number) = [some 1, some 3, some 2] := by
  refine ⟨fun used => ⟨get_next_text_spec used, get_next_drawing_spec used⟩,
    fun app => ⟨rfl, rfl⟩, by decide, by decide⟩

/-- Witness for C3 at the used set `{1, 3}`: every positive number below
the allocated one (2) is used. -/
theorem C3_allocate_smallest_free_witness : 1 ∈ ({1, 3} : Finset Nat) :=
  ((C3_allocate_smallest_free.1 {1, 3}).1.2.2) 1 (by decide) (by decide)

/-- C6: for the line/rect/oval tools, any number of mouse-move samples
after a press leaves the canonical bitmap unchanged; on release exactly
one shape spanning the press anchor to the release point is rasterized
into the canonical bitmap and the preview layer is empty. -/
theorem C6_shape_preview_commit (s : DrawingCanvas) (e0 eR : MouseEvent)
    (evs : List MouseEvent) (hm : s.mode ≠ Mode.pen) :
    (evs.foldl DrawingCanvas.on_mouse_move (s.on_mouse_press e0)).image = s.image ∧
    ((evs.foldl DrawingCanvas.on_mouse_move (s.on_mouse_press e0)).on_mouse_release eR).image.ops =
      s.image.ops ++ releasePrim s.mode e0.x e0.y eR.x eR.y
        (if s.is_eraser then eraserColor s.dark_mode else hex_to_rgb s.brush_color)
        s.brush_size ∧
    (releasePrim s.mode e0.x e0.y eR.x eR.y
        (if s.is_eraser then eraserColor s.dark_mode else hex_to_rgb s.brush_color)
        s.brush_size).length = 1 ∧
    (((evs.foldl DrawingCanvas.on_mouse_move (s.on_mouse_press e0)).on_mouse_release eR).canvas.items.filter
        (fun it => it.isPreview)) = [] := by
  have f1 : (s.on_mouse_press e0).mode = s.mode := rfl
  have f2 : (s.on_mouse_press e0).image = s.image := rfl
  have f3 : (s.on_mouse_press e0).drawing = true := rfl
  have f4 : (s.on_mouse_press e0).start_x = e0.x := rfl
  have f5 : (s.on_mouse_press e0).start_y = e0.y := rfl
  have f6 : (s.on_mouse_press e0).is_eraser = s.is_eraser := rfl
  have f7 : (s.on_mouse_press e0).dark_mode = s.dark_mode := rfl
  have f8 : (s.on_mouse_press e0).brush_color = s.brush_color := rfl
  have f9 : (s.on_mouse_press e0).brush_size = s.brush_size := rfl
  obtain ⟨g1, g2, g3, g4, g5, g6, g7, g8, g9⟩ :=
    foldl_move_shape evs (s.on_mouse_press e0) (by rw [f1]; exact hm)
  obtain ⟨r1, r2, r3⟩ :=
    on_mouse_release_armed (evs.foldl DrawingCanvas.on_mouse_move (s.on_mouse_press e0)) eR
      (by rw [g3, f3])
  refine ⟨g1.trans f2, ?_, ?_, r2⟩
  · rw [r1, g1, f2, g2, f1, g4, f4, g5, f5, g6, f6, g7, f7, g8, f8, g9, f9]
  · cases hmode : s.mode with
    | pen => exact absurd hmode hm
    | line => rfl
    | rect => rfl
    | oval => rfl

/-- A canvas in rect mode for the C6 witness. -/
def c6canvas : DrawingCanvas := { DrawingCanvas.init false with mode := Mode.rect }

/-- Witness for C6: a concrete rect drag with two intermediate samples. -/
theorem C6_shape_preview_commit_witness :
    (([⟨3, 4⟩, ⟨5, 6⟩] : List MouseEvent).foldl DrawingCanvas.on_mouse_move
      (c6canvas.on_mouse_press ⟨1, 2⟩)).image = c6canvas.image ∧
    ((([⟨3, 4⟩, ⟨5, 6⟩] : List MouseEvent).foldl DrawingCanvas.on_mouse_move
      (c6canvas.on_mouse_press ⟨1, 2⟩)).on_mouse_release ⟨10, 20⟩).image.ops =
      c6canvas.image.ops ++ releasePrim c6canvas.mode 1 2 10 20
        (if c6canvas.is_eraser then eraserColor c6canvas.dark_mode
         else hex_to_rgb c6canvas.brush_color) c6canvas.brush_size ∧
    (releasePrim c6canvas.mode 1 2 10 20
        (if c6canvas.is_eraser then eraserColor c6canvas.dark_mode
         else hex_to_rgb c6canvas.brush_color) c6canvas.brush_size).length = 1 ∧
    ((([⟨3, 4⟩, ⟨5, 6⟩] : List MouseEvent).foldl DrawingCanvas.on_mouse_move
      (c6canvas.on_mouse_press ⟨1, 2⟩)).on_mouse_release ⟨10, 20⟩).canvas.items.filter
        (fun it => it.isPreview) = [] :=
  C6_shape_preview_commit c6canvas ⟨1, 2⟩ ⟨10, 20⟩ [⟨3, 4⟩, ⟨5, 6⟩] (by decide)

/-- C8 (amended): an eraser pen stroke paints the dark-mode default
background — white when dark mode is off, `(30,30,30)` when it is on —
independently of draw-time history; this equals the surface's current
background exactly when that background is the dark-mode default. -/
theorem C8_eraser_uses_dark_mode_default (s : DrawingCanvas) (e : MouseEvent)
    (hd : s.drawing = true) (hm : s.mode = Mode.pen) (he : s.is_eraser = true) :
    (s.on_mouse_move e).image.ops =
      s.image.ops ++
        [Prim.line s.last_x s.last_y e.x e.y (eraserColor s.dark_mode) s.brush_size] ∧
    (s.image.background = eraserColor s.dark_mode →
      (s.on_mouse_move e).image.ops =
        s.image.ops ++
          [Prim.line s.last_x s.last_y e.x e.y s.image.background s.brush_size]) := by
  constructor
  · simp [DrawingCanvas.on_mouse_move, hd, hm, he]
  · intro hbg
    simp [DrawingCanvas.on_mouse_move, hd, hm, he, hbg]

/-- A light-mode canvas, sepia theme, eraser active, mid-stroke: the setup
refuting C8 as stated. -/
def c8canvas : DrawingCanvas :=
  (((DrawingCanvas.init false).set_theme ("sepia")).toggle_eraser).on_mouse_press ⟨5, 5⟩

/-- Counterexample to C8 as stated: after `set_theme("sepia")` the surface
background is `(244,234,224)`, but the eraser stroke paints
`(255,255,255)` — not the current background. -/
theorem C8_counterexample :
    (c8canvas.on_mouse_move ⟨7, 7⟩).image.ops = [Prim.line 5 5 7 7 whiteRGB 3] ∧
    (c8canvas.on_mouse_move ⟨7, 7⟩).image.background = ⟨244, 234, 224⟩ ∧
    whiteRGB ≠ (⟨244, 234, 224⟩ : RGB) := by decide

/-- An eraser stroke on a default light background for the C8 witness. -/
def c8wcanvas : DrawingCanvas :=
  ((DrawingCanvas.init false).toggle_eraser).on_mouse_press ⟨0, 0⟩

/-- Witness for the amended C8: on the default light background the eraser
paints exactly the current background. -/
theorem C8_eraser_uses_dark_mode_default_witness :
    (c8wcanvas.on_mouse_move ⟨2, 3⟩).image.ops =
      c8wcanvas.image.ops ++
        [Prim.line 0 0 2 3 c8wcanvas.image.background c8wcanvas.brush_size] :=
  (C8_eraser_uses_dark_mode_default c8wcanvas ⟨2, 3⟩ (by decide) (by decide)
    (by decide)).2 (by decide)

/-- The tail of `close_tab`: after the removal, an emptied registry gets a
fresh default text tab before the call returns. -/
theorem close_tab_tail_ne_nil (app2 : NotepadApp) (idx : Nat) :
    (if app2.tabs.isEmpty then app2.new_text_tab
     else { app2 with current_tab_index := idx - 1 }).tabs ≠ [] := by
  by_cases he : app2.tabs.isEmpty
  · rw [if_pos he]
    simp [NotepadApp.new_text_tab]
  · rw [if_neg he]
    simpa [List.isEmpty_iff] using he

/-- C2 (amended): `close_tab` never leaves the registry empty — when the
last tab is closed a default text tab is created synchronously before the
call returns. -/
theorem C2_close_tab_preserves_nonempty (app : NotepadApp) (idx : Nat)
    (h : app.tabs ≠ []) : (app.close_tab idx).tabs ≠ [] := by
  unfold NotepadApp.close_tab
  split
  · dsimp only
    repeat' split
    all_goals
      first
        | (rename_i hdw hEmpty x n heq
           rw [heq] at hEmpty
           simp at hEmpty ⊢
           exact hEmpty)
        | (rename_i hdw hEmpty x heq
           rw [heq] at hEmpty
           simp at hEmpty ⊢
           exact hEmpty)
        | simp [NotepadApp.new_text_tab]
  · exact h

/-- Witness for the amended C2: closing the only tab of the startup
registry still leaves a tab. -/
theorem C2_close_tab_preserves_nonempty_witness :
    (NotepadApp.initial.close_tab 0).tabs ≠ [] :=
  C2_close_tab_preserves_nonempty NotepadApp.initial 0 (by decide)

/-- Counterexample to C2 as stated: restoring a session whose manifest
lists no tabs removes the startup placeholder and leaves the registry
empty — the tabs list is empty after a session restore at startup. -/
theorem C2_counterexample :
    (NotepadApp.initial.load_session ⟨∅, ∅, []⟩).tabs = [] := by decide

/-- C9 (amended): `on_tab_motion` moves the dragged tab to the hovered
index and preserves the list's length, but leaves `current_tab_index`
untouched — the active pointer is not retargeted when the active tab
moves. -/
theorem C9_reorder_keeps_active_index (app : NotepadApp) (i j : Nat)
    (hi : i < app.tabs.length) (hj : j < app.tabs.length) (hne : i ≠ j) :
    (app.on_tab_motion i j).current_tab_index = app.current_tab_index ∧
    (app.on_tab_motion i j).tabs.length = app.tabs.length ∧
    (app.on_tab_motion i j).tabs.get? j = app.tabs.get? i := by
  have hget : app.tabs.get? i = some (app.tabs.get ⟨i, hi⟩) := List.get?_eq_get hi
  unfold NotepadApp.on_tab_motion
  rw [if_pos (Ne.symm hne), hget]
  refine ⟨rfl, ?_, ?_⟩
  · rw [pyInsert_length, length_eraseIdx' hi]
    omega
  · rw [pyInsert_get?_self _ _ _ (by rw [length_eraseIdx' hi]; omega)]

/-- Two tabs, the second (active) one dragged to the front, for C9. -/
def app9 : NotepadApp := NotepadApp.initial.new_text_tab

/-- Counterexample to C9 as stated: dragging the active tab (index 1,
`Untitled 2`) to index 0 leaves `current_tab_index = 1`, which now
designates `Untitled 1` — a different tab. -/
theorem C9_counterexample :
    app9.current_tab_index = 1 ∧
    (app9.tabs.get? 1).map (fun t => t.name) = some ("Untitled 2") ∧
    (app9.on_tab_motion 1 0).current_tab_index = 1 ∧
    ((app9.on_tab_motion 1 0).tabs.get? 1).map (fun t => t.name) = some ("Untitled 1") ∧
    ((app9.on_tab_motion 1 0).tabs.get? 0).map (fun t => t.name) = some ("Untitled 2") := by
  decide

/-- Witness for the amended C9 on the concrete two-tab registry. -/
theorem C9_reorder_keeps_active_index_witness :
    (app9.on_tab_motion 1 0).current_tab_index = app9.current_tab_index ∧
    (app9.on_tab_motion 1 0).tabs.length = app9.tabs.length ∧
    (app9.on_tab_motion 1 0).tabs.get? 0 = app9.tabs.get? 1 :=
  C9_reorder_keeps_active_index app9 1 0 (by decide) (by decide) (by decide)

/-- C5 (amended): linking the current text tab to a drawing tab sets the
forward reference and the drawing tab's back-reference (and its attached
text), and leaves every other tab untouched — in particular a formerly
linked drawing tab keeps its stale back-reference. -/
theorem C5_link_overwrites_without_clearing (app : NotepadApp) (ti di : Nat)
    (hne : ti ≠ di) (ct dt : Tab) (hct : app.tabs.get? ti = some ct)
    (hdt : app.tabs.get? di = some dt) :
    (app.export_with_selected_drawing ti di).tabs.get? ti =
      some { ct with linked_drawing_tab_name := dt.name } ∧
    (app.export_with_selected_drawing ti di).tabs.get? di =
      some { dt with
        linked_text_tab_name := ct.name
        drawing_text :=
          match ct.content with
          | TabContent.text w => w.getAll
          | TabContent.drawing _ => "" } ∧
    ∀ k, k ≠ ti → k ≠ di →
      (app.export_with_selected_drawing ti di).tabs.get? k = app.tabs.get? k := by
  obtain ⟨hti, -⟩ := List.get?_eq_some.mp hct
  obtain ⟨hdi, -⟩ := List.get?_eq_some.mp hdt
  unfold NotepadApp.export_with_selected_drawing
  rw [hct, hdt]
  refine ⟨?_, ?_, ?_⟩
  · rw [get?_set_other _ di ti _ (Ne.symm hne), get?_set_self]
    exact hti
  · rw [get?_set_self]
    rw [List.length_set]
    exact hdi
  · intro k hk1 hk2
    rw [get?_set_other _ di k _ (Ne.symm hk2), get?_set_other _ ti k _ (Ne.symm hk1)]

/-- Text tab `A`, linked to drawing tab `B`; `B` back-references `A`. -/
def tabA5 : Tab :=
  { name := "A"
    is_drawing := false
    content := TabContent.text emptyTextWidget
    file_path := none
    tab_number := some 1
    drawing_text := ""
    linked_text_tab_name := ""
    linked_drawing_tab_name := "B" }

/-- Drawing tab `B`, back-referencing `A`. -/
def tabB5 : Tab :=
  { name := "B"
    is_drawing := true
    content := TabContent.drawing (DrawingCanvas.init false)
    file_path := none
    tab_number := some 1
    drawing_text := ""
    linked_text_tab_name := "A"
    linked_drawing_tab_name := "" }

/-- Drawing tab `C`, unlinked. -/
def tabC5 : Tab :=
  { name := "C"
    is_drawing := true
    content := TabContent.drawing (DrawingCanvas.init false)
    file_path := none
    tab_number := some 2
    drawing_text := ""
    linked_text_tab_name := ""
    linked_drawing_tab_name := "" }

/-- Registry with `A` (linked to `B`), `B`, and `C`. -/
def app5 : NotepadApp :=
  { tabs := [tabA5, tabB5, tabC5]
    current_tab_index := 0
    dark_mode := false
    used_text_tab_numbers := {1}
    used_drawing_tab_numbers := {1, 2} }

/-- Counterexample to C5 as stated: after re-linking `A` to `C`, tab `B`
STILL back-references `A` — the stale reverse reference is not cleared. -/
theorem C5_counterexample :
    ((app5.export_with_selected_drawing 0 2).tabs.get? 0).map
        (fun t => t.linked_drawing_tab_name) = some ("C") ∧
    ((app5.export_with_selected_drawing 0 2).tabs.get? 2).map
        (fun t => t.linked_text_tab_name) = some ("A") ∧
    ((app5.export_with_selected_drawing 0 2).tabs.get? 1).map
        (fun t => t.linked_text_tab_name) = some ("A") := by
  decide

/-- Witness for the amended C5 on the concrete `A`/`B`/`C` registry. -/
theorem C5_link_overwrites_without_clearing_witness :
    (app5.export_with_selected_drawing 0 2).tabs.get? 0 =
      some { tabA5 with linked_drawing_tab_name := tabC5.name } ∧
    (app5.export_with_selected_drawing 0 2).tabs.get? 1 = app5.tabs.get? 1 :=
  ⟨(C5_link_overwrites_without_clearing app5 0 2 (by decide) tabA5 tabC5
      (by decide) (by decide)).1,
   (C5_link_overwrites_without_clearing app5 0 2 (by decide) tabA5 tabC5
      (by decide) (by decide)).2.2 1 (by decide) (by decide)⟩

/-- The bold variant of the default font. -/
def boldFont : FontV := { defaultFont with weight := "bold" }

/-- The non-bold (normal-weight) variant of the default font. -/
def notBoldFont : FontV := { defaultFont with weight := "normal" }

/-- Where a clipped span still covers `p`: inside the original `[a, b)`
but outside the removed `[s, e)`. -/
theorem covers_clipSpan_iff (f : FontV) (s e a b p : Nat) :
    FmtTag.covers ⟨clipSpan s e (a, b), f⟩ p = true ↔
      (a ≤ p ∧ p < b ∧ (p < s ∨ e ≤ p)) := by
  unfold FmtTag.covers clipSpan
  simp only [List.any_append, List.any_cons, List.any_nil, Bool.or_eq_true,
    decide_eq_true_eq]
  split_ifs with hA hB hB <;> simp <;> omega

/-- C4 (amended): when the earlier range covers the later range's start
offset, the later-created range's attribute wins on `[s2, e2)` (the apply
operation removed the earlier tag there), while the earlier range still
governs its non-overlapped part. -/
theorem C4_later_wins_on_overlap_when_covering (f1 f2 : FontV) (s1 e1 s2 e2 : Nat)
    (h1 : s1 ≤ s2) (h2 : s2 < e1) :
    (∀ p, s2 ≤ p → p < e2 →
      get_selection_font (apply_format_to_selection
        (apply_format_to_selection emptyTextWidget f1 s1 e1) f2 s2 e2) p = f2) ∧
    (∀ p, s1 ≤ p → p < e1 → (p < s2 ∨ e2 ≤ p) →
      get_selection_font (apply_format_to_selection
        (apply_format_to_selection emptyTextWidget f1 s1 e1) f2 s2 e2) p = f1) := by
  have hcov : FmtTag.covers ⟨[(s1, e1)], f1⟩ s2 = true := by
    simp only [FmtTag.covers, List.any_cons, List.any_nil, Bool.or_false,
      decide_eq_true_eq]
    omega
  have htags : (apply_format_to_selection
      (apply_format_to_selection emptyTextWidget f1 s1 e1) f2 s2 e2).tags =
      [⟨clipSpan s2 e2 (s1, e1), f1⟩, ⟨[(s2, e2)], f2⟩] := by
    simp [apply_format_to_selection, emptyTextWidget, hcov, FmtTag.removeRange]
  constructor
  · intro p hp1 hp2
    have hc1 : FmtTag.covers ⟨clipSpan s2 e2 (s1, e1), f1⟩ p = false := by
      rw [Bool.eq_false_iff]
      intro hcontra
      have := (covers_clipSpan_iff f1 s2 e2 s1 e1 p).mp hcontra
      omega
    have hc2 : FmtTag.covers ⟨[(s2, e2)], f2⟩ p = true := by
      simp only [FmtTag.covers, List.any_cons, List.any_nil, Bool.or_false,
        decide_eq_true_eq]
      omega
    unfold get_selection_font
    rw [htags]
    simp only [List.find?, hc1, hc2]
  · intro p hp1 hp2 hp3
    have hc1 : FmtTag.covers ⟨clipSpan s2 e2 (s1, e1), f1⟩ p = true :=
      (covers_clipSpan_iff f1 s2 e2 s1 e1 p).mpr (by omega)
    unfold get_selection_font
    rw [htags]
    simp only [List.find?, hc1]

/-- Witness for the amended C4: it is exactly the spec's scenario —
bold on `[0,5)` then non-bold on `[2,8)`; offset 3 resolves non-bold,
offset 0 resolves bold. -/
theorem C4_later_wins_on_overlap_when_covering_witness :
    get_selection_font (apply_format_to_selection
      (apply_format_to_selection emptyTextWidget boldFont 0 5) notBoldFont 2 8) 3 =
      notBoldFont ∧
    get_selection_font (apply_format_to_selection
      (apply_format_to_selection emptyTextWidget boldFont 0 5) notBoldFont 2 8) 0 =
      boldFont :=
  ⟨(C4_later_wins_on_overlap_when_covering boldFont notBoldFont 0 5 2 8
      (by decide) (by decide)).1 3 (by decide) (by decide),
   (C4_later_wins_on_overlap_when_covering boldFont notBoldFont 0 5 2 8
      (by decide) (by decide)).2 0 (by decide) (by decide) (Or.inl (by decide))⟩

/-- Counterexample to C4 as stated: bold applied to `[3,5)`, then
non-bold to `[2,8)`. The earlier tag is not present at offset 2, so it is
not removed, and resolution at offset 3 returns the EARLIER (bold) font,
not the later one. -/
theorem C4_counterexample :
    get_selection_font (apply_format_to_selection
      (apply_format_to_selection emptyTextWidget boldFont 3 5) notBoldFont 2 8) 3 =
      boldFont ∧
    boldFont ≠ notBoldFont := by decide

/-- Whether a tab's content object matches its kind flag (always true for
tabs the application itself creates). -/
def Tab.contentMatches (t : Tab) : Bool :=
  match t.is_drawing, t.content with
  | true, TabContent.drawing _ => true
  | false, TabContent.text _ => true
  | _, _ => false

/-- What a save/restore cycle preserves of one tab: kind, name, number,
and — for drawing tabs — the link back-reference and attached text. -/
def roundTrip (t t' : Tab) : Prop :=
  t'.is_drawing = t.is_drawing ∧ t'.name = t.name ∧ t'.tab_number = t.tab_number ∧
  (t.is_drawing = true →
    t'.linked_text_tab_name = t.linked_text_tab_name ∧
    t'.drawing_text = t.drawing_text)

theorem roundtrip_list (dm : Bool) :
    ∀ (l : List Tab), (∀ t ∈ l, t.contentMatches = true) →
      List.Forall₂ roundTrip l ((l.filterMap Tab.saveInfo).filterMap (restoreInfo dm)) := by
  intro l
  induction l with
  | nil => intro _; exact List.Forall₂.nil
  | cons t l ih =>
      intro hwf
      have ht := hwf t (List.mem_cons_self t l)
      have hrest := ih (fun x hx => hwf x (List.mem_cons_of_mem t hx))
      rcases hc : t.content with w | d
      · have hdr : t.is_drawing = false := by
          cases hdr : t.is_drawing
          · rfl
          · rw [Tab.contentMatches, hdr, hc] at ht
            exact absurd ht (by simp)
        have hsave : Tab.saveInfo t =
            some (TabInfo.text t.tab_number (Sidecar.ok w.getEnd) t.name t.file_path) := by
          rw [Tab.saveInfo, hdr, hc]
          simp
        rw [List.filterMap_cons, hsave]
        rw [List.filterMap_cons]
        refine List.Forall₂.cons ?_ hrest
        exact ⟨hdr.symm, rfl, rfl, fun hcontra => absurd (hdr ▸ hcontra) (by simp)⟩
      · have hdr : t.is_drawing = true := by
          cases hdr : t.is_drawing
          · rw [Tab.contentMatches, hdr, hc] at ht
            exact absurd ht (by simp)
          · rfl
        have hsave : Tab.saveInfo t =
            some (TabInfo.drawing t.tab_number (Sidecar.ok d.image) t.name
              t.drawing_text t.linked_text_tab_name) := by
          rw [Tab.saveInfo, hdr, hc]
          simp
        rw [List.filterMap_cons, hsave]
        rw [List.filterMap_cons]
        refine List.Forall₂.cons ?_ hrest
        exact ⟨hdr.symm, rfl, rfl, fun _ => ⟨rfl, rfl⟩⟩

/-- The tab list `load_session` builds on the startup registry: the
placeholder `Untitled 1` is removed, then every restorable manifest entry
is appended in order. -/
theorem initial_load_session_tabs (data : SessionData) :
    (NotepadApp.initial.load_session data).tabs =
      data.tabs.filterMap (restoreInfo false) := rfl

/-- C1 (amended): the session round-trip into a fresh registry preserves
tab count, order, kind, name, number, and the drawing tabs' link
back-references and attached text; text tabs' forward link references
(`linked_drawing_tab_name`) are not saved and come back empty. -/
theorem C1_roundtrip_preserves_identity (app : NotepadApp)
    (hwf : ∀ t ∈ app.tabs, t.contentMatches = true) :
    (NotepadApp.initial.load_session app.save_session).tabs.length = app.tabs.length ∧
    List.Forall₂ roundTrip app.tabs (NotepadApp.initial.load_session app.save_session).tabs := by
  have h := roundtrip_list false app.tabs hwf
  have htabs : (NotepadApp.initial.load_session app.save_session).tabs =
      (app.tabs.filterMap Tab.saveInfo).filterMap (restoreInfo false) :=
    initial_load_session_tabs app.save_session
  rw [htabs]
  exact ⟨h.length_eq.symm, h⟩

/-- Text tab `A` linked forward to `Drawing 1`. -/
def tabA1 : Tab :=
  { name := "A"
    is_drawing := false
    content := TabContent.text emptyTextWidget
    file_path := none
    tab_number := some 1
    drawing_text := ""
    linked_text_tab_name := ""
    linked_drawing_tab_name := "Drawing 1" }

/-- Drawing tab `Drawing 1`, back-referencing `A`. -/
def tabD1 : Tab :=
  { name := "Drawing 1"
    is_drawing := true
    content := TabContent.drawing (DrawingCanvas.init false)
    file_path := none
    tab_number := some 1
    drawing_text := "hello"
    linked_text_tab_name := "A"
    linked_drawing_tab_name := "" }

/-- A linked pair of tabs to snapshot for C1. -/
def app1c : NotepadApp :=
  { tabs := [tabA1, tabD1]
    current_tab_index := 0
    dark_mode := false
    used_text_tab_numbers := {1}
    used_drawing_tab_numbers := {1} }

/-- Counterexample to C1 as stated: the text tab's forward link reference
is lost by the round-trip — `save_session` does not record
`linked_drawing_tab_name`, so the restored text tab carries `""` instead
of `"Drawing 1"`. -/
theorem C1_counterexample :
    ((NotepadApp.initial.load_session app1c.save_session).tabs.get? 0).map
        (fun t => t.linked_drawing_tab_name) = some ("") ∧
    (app1c.tabs.get? 0).map (fun t => t.linked_drawing_tab_name) =
      some ("Drawing 1") ∧
    ("" : String) ≠ "Drawing 1" := by decide

/-- Witness for the amended C1 on the concrete linked pair. -/
theorem C1_roundtrip_preserves_identity_witness :
    (NotepadApp.initial.load_session app1c.save_session).tabs.length =
      app1c.tabs.length ∧
    List.Forall₂ roundTrip app1c.tabs
      (NotepadApp.initial.load_session app1c.save_session).tabs :=
  C1_roundtrip_preserves_identity app1c (by decide)

/-- Every live tab's number is registered in its kind's used pool. -/
def NumbersRegisteredOn (tabs : List Tab) (usedT usedD : Finset Nat) : Prop :=
  ∀ t ∈ tabs, ∀ n, t.tab_number = some n →
    (if t.is_drawing then n ∈ usedD else n ∈ usedT)

/-- Two tabs of the same kind never carry the same number. -/
def sameKindDistinct (a b : Tab) : Prop :=
  a.is_drawing = b.is_drawing → ∀ n, a.tab_number = some n → b.tab_number ≠ some n

/-- The tab-number registration invariant over the raw registry fields. -/
def TabNumbersInvOn (tabs : List Tab) (usedT usedD : Finset Nat) : Prop :=
  NumbersRegisteredOn tabs usedT usedD ∧ tabs.Pairwise sameKindDistinct

/-- The tab-number registration invariant of a registry state. -/
def TabNumbersInv (app : NotepadApp) : Prop :=
  TabNumbersInvOn app.tabs app.used_text_tab_numbers app.used_drawing_tab_numbers

theorem sameKindDistinct_symm (a b : Tab) (h : sameKindDistinct a b) :
    sameKindDistinct b a := by
  intro hk n hbn habn
  exact (h hk.symm n habn) hbn

theorem inv_append_text (tabs : List Tab) (usedT usedD : Finset Nat)
    (h : TabNumbersInvOn tabs usedT usedD) (tnew : Tab) (n : Nat)
    (hkind : tnew.is_drawing = false) (hnum : tnew.tab_number = some n)
    (hfresh : n ∉ usedT) :
    TabNumbersInvOn (tabs ++ [tnew]) (insert n usedT) usedD := by
  obtain ⟨hreg, hdist⟩ := h
  constructor
  · intro t ht m hm
    rcases List.mem_append.mp ht with htl | htr
    · have hbase := hreg t htl m hm
      cases hd : t.is_drawing
      · simp only [hd, if_false] at hbase ⊢
        exact Finset.mem_insert_of_mem hbase
      · simp only [hd, if_true] at hbase ⊢
        exact hbase
    · have heq : t = tnew := by simpa using htr
      subst heq
      rw [hnum] at hm
      injection hm with hm'
      subst hm'
      simp only [hkind, if_false]
      exact Finset.mem_insert_self _ _
  · rw [List.pairwise_append]
    refine ⟨hdist, List.pairwise_singleton _ _, ?_⟩
    intro a ha b hb
    have hb' : b = tnew := by simpa using hb
    subst hb'
    intro hk m ham hcontra
    rw [hnum] at hcontra
    injection hcontra with h'
    subst h'
    have hak : a.is_drawing = false := hk.trans hkind
    have hbase := hreg a ha n ham
    simp only [hak, if_false] at hbase
    exact hfresh hbase

theorem inv_append_drawing (tabs : List Tab) (usedT usedD : Finset Nat)
    (h : TabNumbersInvOn tabs usedT usedD) (tnew : Tab) (n : Nat)
    (hkind : tnew.is_drawing = true) (hnum : tnew.tab_number = some n)
    (hfresh : n ∉ usedD) :
    TabNumbersInvOn (tabs ++ [tnew]) usedT (insert n usedD) := by
  obtain ⟨hreg, hdist⟩ := h
  constructor
  · intro t ht m hm
    rcases List.mem_append.mp ht with htl | htr
    · have hbase := hreg t htl m hm
      cases hd : t.is_drawing
      · simp only [hd, if_false] at hbase ⊢
        exact hbase
      · simp only [hd, if_true] at hbase ⊢
        exact Finset.mem_insert_of_mem hbase
    · have heq : t = tnew := by simpa using htr
      subst heq
      rw [hnum] at hm
      injection hm with hm'
      subst hm'
      simp only [hkind, if_true]
      exact Finset.mem_insert_self _ _
  · rw [List.pairwise_append]
    refine ⟨hdist, List.pairwise_singleton _ _, ?_⟩
    intro a ha b hb
    have hb' : b = tnew := by simpa using hb
    subst hb'
    intro hk m ham hcontra
    rw [hnum] at hcontra
    injection hcontra with h'
    subst h'
    have hak : a.is_drawing = true := hk.trans hkind
    have hbase := hreg a ha n ham
    simp only [hak, if_true] at hbase
    exact hfresh hbase

theorem inv_eraseIdx (tabs : List Tab) (usedT usedD : Finset Nat)
    (h : TabNumbersInvOn tabs usedT usedD) (idx : Nat) (hlt : idx < tabs.length) :
    (∀ n, (tabs.get ⟨idx, hlt⟩).tab_number = some n →
      ((tabs.get ⟨idx, hlt⟩).is_drawing = true →
        TabNumbersInvOn (tabs.eraseIdx idx) usedT (usedD.erase n)) ∧
      ((tabs.get ⟨idx, hlt⟩).is_drawing = false →
        TabNumbersInvOn (tabs.eraseIdx idx) (usedT.erase n) usedD)) ∧
    TabNumbersInvOn (tabs.eraseIdx idx) usedT usedD := by
  obtain ⟨hreg, hdist⟩ := h
  have hdist' : (tabs.eraseIdx idx).Pairwise sameKindDistinct :=
    hdist.sublist (List.eraseIdx_sublist tabs idx)
  have hmem : ∀ t ∈ tabs.eraseIdx idx, t ∈ tabs := fun t ht =>
    (List.eraseIdx_sublist tabs idx).subset ht
  have hrel : ∀ t ∈ tabs.eraseIdx idx, sameKindDistinct (tabs.get ⟨idx, hlt⟩) t :=
    fun t ht => pairwise_eraseIdx_rel sameKindDistinct_symm tabs idx hlt t hdist ht
  refine ⟨?_, fun t ht m hm => hreg t (hmem t ht) m hm, hdist'⟩
  intro n hn
  constructor
  · intro hdw
    refine ⟨?_, hdist'⟩
    intro t ht m hm
    have hbase := hreg t (hmem t ht) m hm
    cases hd : t.is_drawing
    · simp only [hd, if_false] at hbase ⊢
      exact hbase
    · simp only [hd, if_true] at hbase ⊢
      refine Finset.mem_erase.mpr ⟨?_, hbase⟩
      intro hmn
      subst hmn
      exact (hrel t ht (by rw [hdw, hd]) m hn) hm
  · intro hdw
    refine ⟨?_, hdist'⟩
    intro t ht m hm
    have hbase := hreg t (hmem t ht) m hm
    cases hd : t.is_drawing
    · simp only [hd, if_false] at hbase ⊢
      refine Finset.mem_erase.mpr ⟨?_, hbase⟩
      intro hmn
      subst hmn
      exact (hrel t ht (by rw [hdw, hd]) m hn) hm
    · simp only [hd, if_true] at hbase ⊢
      exact hbase

/-- `new_text_tab` preserves the registration invariant. -/
theorem inv_new_text_tab (app : NotepadApp) (h : TabNumbersInv app) :
    TabNumbersInv app.new_text_tab :=
  inv_append_text app.tabs _ _ h _
    (get_next_text_tab_number app.used_text_tab_numbers) rfl rfl
    (get_next_text_spec app.used_text_tab_numbers).1

/-- `new_drawing_tab` preserves the registration invariant. -/
theorem inv_new_drawing_tab (app : NotepadApp) (h : TabNumbersInv app) :
    TabNumbersInv app.new_drawing_tab :=
  inv_append_drawing app.tabs _ _ h _
    (get_next_drawing_tab_number app.used_drawing_tab_numbers) rfl rfl
    (get_next_drawing_spec app.used_drawing_tab_numbers).1

/-- `open_file` preserves the registration invariant. -/
theorem inv_open_file (app : NotepadApp) (h : TabNumbersInv app)
    (b f c : String) : TabNumbersInv (app.open_file b f c) :=
  inv_append_text app.tabs _ _ h _
    (get_next_text_tab_number app.used_text_tab_numbers) rfl rfl
    (get_next_text_spec app.used_text_tab_numbers).1

/-- `close_tab` preserves the registration invariant. -/
theorem inv_close_tab (app : NotepadApp) (h : TabNumbersInv app) (idx : Nat) :
    TabNumbersInv (app.close_tab idx) := by
  by_cases hlt : idx < app.tabs.length
  · rcases htn : (app.tabs.get ⟨idx, hlt⟩).tab_number with _ | n
    · unfold NotepadApp.close_tab
      rw [dif_pos hlt]
      simp only [htn]
      split
      · exact inv_new_text_tab _ (inv_eraseIdx app.tabs _ _ h idx hlt).2
      · exact (inv_eraseIdx app.tabs _ _ h idx hlt).2
    · cases hdw : (app.tabs.get ⟨idx, hlt⟩).is_drawing
      · unfold NotepadApp.close_tab
        rw [dif_pos hlt]
        simp only [htn, hdw, Bool.false_eq_true, if_false]
        split
        · apply inv_new_text_tab
          exact ((inv_eraseIdx app.tabs _ _ h idx hlt).1 n htn).2 hdw
        · exact ((inv_eraseIdx app.tabs _ _ h idx hlt).1 n htn).2 hdw
      · unfold NotepadApp.close_tab
        rw [dif_pos hlt]
        simp only [htn, hdw, if_true]
        split
        · apply inv_new_text_tab
          exact ((inv_eraseIdx app.tabs _ _ h idx hlt).1 n htn).1 hdw
        · exact ((inv_eraseIdx app.tabs _ _ h idx hlt).1 n htn).1 hdw
  · unfold NotepadApp.close_tab
    rw [dif_neg hlt]
    exact h

/-- C10 (amended): the tab-number registration invariant — every live
tab's number is in its kind's used pool and same-kind tabs never share a
number — is preserved by `new_text_tab`, `new_drawing_tab`, `open_file`
and `close_tab`. (`load_session` breaks it; see the counterexample.) -/
theorem C10_number_registration_invariant (app : NotepadApp)
    (h : TabNumbersInv app) :
    TabNumbersInv app.new_text_tab ∧
    TabNumbersInv app.new_drawing_tab ∧
    (∀ b f c : String, TabNumbersInv (app.open_file b f c)) ∧
    (∀ idx : Nat, TabNumbersInv (app.close_tab idx)) :=
  ⟨inv_new_text_tab app h, inv_new_drawing_tab app h,
   fun b f c => inv_open_file app h b f c,
   fun idx => inv_close_tab app h idx⟩

/-- A session manifest with one text tab numbered 1 and `usedNumbers`
containing 1, exactly as `save_session` would write it. -/
def data10 : SessionData :=
  ⟨{1}, ∅, [TabInfo.text (some 1) (Sidecar.ok ("hi\n")) ("A") none]⟩

/-- The tab `load_session` restores from `data10`. -/
def restoredA10 : Tab :=
  { name := "A"
    is_drawing := false
    content := TabContent.text { emptyTextWidget with text := "hi\n" }
    file_path := none
    tab_number := some 1
    drawing_text := ""
    linked_text_tab_name := ""
    linked_drawing_tab_name := "" }

/-- Counterexample to C10 as stated: `load_session` replaces the pools
with the stored ones and then discards the startup placeholder's number
(1) from the restored text pool, leaving a live tab numbered 1 with an
empty used set — the invariant is broken right after a session restore,
and a subsequent allocation would hand out 1 again. -/
theorem C10_counterexample :
    ((NotepadApp.initial.load_session data10).tabs.map (fun t => t.tab_number)) =
      [some 1] ∧
    (NotepadApp.initial.load_session data10).used_text_tab_numbers = ∅ ∧
    get_next_text_tab_number
      (NotepadApp.initial.load_session data10).used_text_tab_numbers = 1 ∧
    ¬ TabNumbersInv (NotepadApp.initial.load_session data10) := by
  refine ⟨by decide, by decide, by decide, ?_⟩
  rintro ⟨hreg, -⟩
  have hx : restoredA10 ∈ (NotepadApp.initial.load_session data10).tabs := by decide
  have hbad := hreg restoredA10 hx 1 rfl
  have hfalse : restoredA10.is_drawing = false := rfl
  simp only [hfalse, if_false] at hbad
  exact absurd hbad (by decide)

/-- Witness for the amended C10: the startup registry satisfies the
invariant and keeps it through a new-tab operation. -/
theorem C10_number_registration_invariant_witness :
    TabNumbersInv NotepadApp.initial.new_text_tab :=
  (C10_number_registration_invariant NotepadApp.initial
    (by
      constructor
      · intro t ht n hn
        have ht' : t = NotepadApp.initial.tabs.get ⟨0, by decide⟩ := by
          have : NotepadApp.initial.tabs =
              [NotepadApp.initial.tabs.get ⟨0, by decide⟩] := rfl
          rw [this] at ht
          simpa using ht
        subst ht'
        have hn' : n = 1 := by
          have : (NotepadApp.initial.tabs.get ⟨0, by decide⟩).tab_number = some 1 := rfl
          rw [this] at hn
          injection hn with h'
          exact h'.symm
        subst hn'
        decide
      · have : NotepadApp.initial.tabs =
            [NotepadApp.initial.tabs.get ⟨0, by decide⟩] := rfl
        rw [this]
        exact List.pairwise_singleton _ _)).1

/-- The `name` field of a session entry. -/
def TabInfo.infoName : TabInfo → String
  | TabInfo.text _ _ n _ => n
  | TabInfo.drawing _ _ n _ _ => n

/-- The `tab_number` field of a session entry. -/
def TabInfo.infoNumber : TabInfo → Option Nat
  | TabInfo.text num _ _ _ => num
  | TabInfo.drawing num _ _ _ _ => num

/-- Whether `load_session` recreates a tab for this entry: text entries
need a readable sidecar; drawing entries only need the file to exist
(a corrupt image still yields a tab with an empty canvas). -/
def TabInfo.restorable : TabInfo → Bool
  | TabInfo.text _ (Sidecar.ok _) _ _ => true
  | TabInfo.text _ _ _ _ => false
  | TabInfo.drawing _ Sidecar.missing _ _ _ => false
  | TabInfo.drawing _ _ _ _ _ => true

/-- Whatever happens to the startup tabs, `load_session` appends exactly
the restorable manifest entries, in order. -/
theorem load_session_tabs_structure (app : NotepadApp) (data : SessionData) :
    ∃ l0 : List Tab, (app.load_session data).tabs =
      l0 ++ data.tabs.filterMap (restoreInfo app.dark_mode) := by
  unfold NotepadApp.load_session
  dsimp only
  split
  · split
    · exact ⟨[], rfl⟩
    · exact ⟨app.tabs, rfl⟩
  · exact ⟨app.tabs, rfl⟩

theorem restoreInfo_matches (dm : Bool) (info : TabInfo)
    (h : info.restorable = true) :
    ∃ t, restoreInfo dm info = some t ∧
      t.name = info.infoName ∧ t.tab_number = info.infoNumber := by
  cases info with
  | text num path name fp =>
      cases path with
      | ok c => exact ⟨_, rfl, rfl, rfl⟩
      | missing => simp [TabInfo.restorable] at h
      | corrupt => simp [TabInfo.restorable] at h
  | drawing num path name dt lt =>
      cases path with
      | missing => simp [TabInfo.restorable] at h
      | corrupt => exact ⟨_, rfl, rfl, rfl⟩
      | ok img => exact ⟨_, rfl, rfl, rfl⟩

/-- C7 (amended): restore is per-tab — every restorable manifest entry
yields a tab with its name and number, no matter how the other entries
fail, and a drawing entry whose sidecar exists but cannot be opened is
kept with a fresh empty canvas. (An entry whose sidecar file is missing
is silently dropped; see the counterexample.) -/
theorem C7_restore_is_per_tab (app : NotepadApp) (data : SessionData) :
    (∀ info ∈ data.tabs, info.restorable = true →
      ∃ t ∈ (app.load_session data).tabs,
        t.name = info.infoName ∧ t.tab_number = info.infoNumber) ∧
    (∀ (num : Option Nat) (name dtext lt : String),
      restoreInfo app.dark_mode (TabInfo.drawing num Sidecar.corrupt name dtext lt) =
        some { name := name
               is_drawing := true
               content := TabContent.drawing (DrawingCanvas.init app.dark_mode)
               file_path := none
               tab_number := num
               drawing_text := dtext
               linked_text_tab_name := lt
               linked_drawing_tab_name := "" } ∧
      (DrawingCanvas.init app.dark_mode).image.ops = []) := by
  constructor
  · intro info hinfo hres
    obtain ⟨l0, hl0⟩ := load_session_tabs_structure app data
    obtain ⟨t, hrt, hname, hnum⟩ := restoreInfo_matches app.dark_mode info hres
    refine ⟨t, ?_, hname, hnum⟩
    rw [hl0]
    exact List.mem_append_right _ (List.mem_filterMap.mpr ⟨info, hinfo, hrt⟩)
  · intro num name dtext lt
    exact ⟨rfl, rfl⟩

/-- A manifest whose only (drawing) entry has a corrupt sidecar. -/
def data7w : SessionData :=
  ⟨∅, {2}, [TabInfo.drawing (some 2) Sidecar.corrupt ("D") "" ""]⟩

/-- Witness for the amended C7: the corrupt-sidecar drawing entry is still
restored, with its name and number. -/
theorem C7_restore_is_per_tab_witness :
    ∃ t ∈ (NotepadApp.initial.load_session data7w).tabs,
      t.name = (TabInfo.drawing (some 2) Sidecar.corrupt ("D") "" "").infoName ∧
      t.tab_number =
        (TabInfo.drawing (some 2) Sidecar.corrupt ("D") "" "").infoNumber :=
  (C7_restore_is_per_tab NotepadApp.initial data7w).1
    (TabInfo.drawing (some 2) Sidecar.corrupt ("D") "" "")
    (by decide) (by decide)

/-- A manifest whose only (text) entry has a missing sidecar file. -/
def data7x : SessionData :=
  ⟨{1}, ∅, [TabInfo.text (some 1) Sidecar.missing ("A") none]⟩

/-- Counterexample to C7 as stated: the listed tab `A`, whose sidecar file
is missing, is NOT recreated with an empty document — it is silently
dropped, and the restored registry is empty. -/
theorem C7_counterexample :
    (NotepadApp.initial.load_session data7x).tabs = [] ∧
    data7x.tabs.length = 1 := by decide

end TextEditor
